import Mathlib

/-!
Verification of the appointment-service data layer.

This file gives a shallow embedding of the two runtime source files of the
repository and proves the specified properties about them:

* `src/app/data/models/base.py` — environment-driven configuration, the
  connection string `DATABASE_URL`, the SQLAlchemy `engine`, and the
  `get_session` scoped-session generator.
* `src/alembic/versions/20250919_1527_11a79f2c969c_create_appointments_table_with_status_.py`
  — the forward (`upgrade`) and backward (`downgrade`) migration acting on an
  explicit relational-store state (type catalog, tables, indexes, rows),
  together with generic PostgreSQL-style insert semantics (NOT NULL checks,
  server defaults, enum membership against the type catalog, uniqueness
  constraints and unique indexes) used to state the schema-level invariants.
-/

namespace AppointmentService

/-! ## Configuration (base.py, active block, lines 37-56) -/

/-- The process environment: a partial map from variable names to values. -/
def Env : Type := String → Option String

/-- `os.getenv(name, dflt)`: the variable's value if set, otherwise the fallback. -/
def getenv (env : Env) (name dflt : String) : String :=
  (env name).getD dflt

/-- The five configuration components read at module import. -/
structure PgConfig where
  user : String
  password : String
  db : String
  host : String
  port : String
deriving DecidableEq

/-- base.py lines 46-50 (active configuration): each component is read from its
environment variable with an independent fallback default; the host defaults
to "db". -/
def pgConfig (env : Env) : PgConfig :=
  { user := getenv env "POSTGRES_USER" "postgres"
    password := getenv env "POSTGRES_PASSWORD" "anil"
    db := getenv env "POSTGRES_DB" "appointment_db"
    host := getenv env "POSTGRES_HOST" "db"
    port := getenv env "POSTGRES_PORT" "5432" }

/-- base.py lines 9-13 (disabled, commented-out configuration): identical except
that the host defaults to "localhost". -/
def pgConfigDisabled (env : Env) : PgConfig :=
  { user := getenv env "POSTGRES_USER" "postgres"
    password := getenv env "POSTGRES_PASSWORD" "anil"
    db := getenv env "POSTGRES_DB" "appointment_db"
    host := getenv env "POSTGRES_HOST" "localhost"
    port := getenv env "POSTGRES_PORT" "5432" }

/-- The f-string of base.py line 53:
postgresql://{user}:{password}@{host}:{port}/{db}. -/
def urlOfConfig (c : PgConfig) : String :=
  "postgresql://" ++ c.user ++ ":" ++ c.password ++ "@" ++ c.host ++ ":" ++
    c.port ++ "/" ++ c.db

/-- `DATABASE_URL` as computed once at module import from the environment. -/
def DATABASE_URL (env : Env) : String :=
  urlOfConfig (pgConfig env)

/-- Overwrite one environment variable. -/
def setEnv (env : Env) (k v : String) : Env :=
  fun n => if n == k then some v else env n

/-- The empty environment: no variable is set. -/
def emptyEnv : Env := fun _ => none

/-! ## Engine construction (base.py line 56 and disabled line 18) -/

/-- The observable construction parameters of a SQLAlchemy engine: the URL and
the two keyword arguments that appear in this repository.  `create_engine`
defaults both `echo` and `pool_pre_ping` to `False` when not passed. -/
structure Engine where
  url : String
  echo : Bool
  poolPrePing : Bool
deriving DecidableEq

/-- base.py line 56 (active): `create_engine(DATABASE_URL, echo=True)`.
`pool_pre_ping` is not passed, so it keeps its `False` default. -/
def engine (env : Env) : Engine :=
  { url := DATABASE_URL env, echo := true, poolPrePing := false }

/-- base.py line 18 (disabled, commented out):
`create_engine(DATABASE_URL, pool_pre_ping=True)`; `echo` is not passed. -/
def engineDisabled (env : Env) : Engine :=
  { url := urlOfConfig (pgConfigDisabled env), echo := false, poolPrePing := true }

/-! ## Scoped session (base.py lines 63-65)

`get_session` is `with Session(engine) as session: yield session`.  The `with`
statement opens the session on entry and runs `Session.close` on every exit of
the block: normal completion of the consumer (StopIteration), an exception
thrown into the generator, and generator shutdown (GeneratorExit on early
termination).  We model the session by its closed flag and the consumer's unit
of work by which of the three exit paths it takes. -/

structure Session where
  closed : Bool
deriving DecidableEq

/-- How the caller's unit of work ends while it holds the yielded session. -/
inductive BodyOutcome (α : Type) : Type
  | ret (a : α)
  | raise (msg : String)
  | close
deriving DecidableEq

/-- `with`-block exit: `Session.close` runs on each of the three paths, and the
outcome itself (return value or propagated exception) is unchanged. -/
def sessionExit {α : Type} (s : Session) (out : BodyOutcome α) :
    Session × BodyOutcome α :=
  match out with
  | .ret a => ({ s with closed := true }, .ret a)
  | .raise e => ({ s with closed := true }, .raise e)
  | .close => ({ s with closed := true }, .close)

/-- `get_session`: open a fresh session bound to the shared engine, hand it to
the caller's unit of work, and run the `with`-exit afterwards. -/
def get_session {α : Type} (body : Session → BodyOutcome α) :
    Session × BodyOutcome α :=
  let s : Session := { closed := false }
  sessionExit s (body s)

/-! ## Relational store state (for the alembic migration)

The migration file acts on a PostgreSQL database.  We model the parts of the
store it touches: the type catalog (`pg_type`), the tables with their columns
and table constraints, the indexes, and the stored rows.  Cell values are kept
as opaque strings (`none` is SQL NULL); only the constraints the schema
declares are modelled, exactly as PostgreSQL enforces them. -/

/-- An enumerated type in the store's type catalog. -/
structure EnumType where
  typname : String
  labels : List String
deriving DecidableEq

/-- Column types appearing in the migration.  An enum column records the label
list and create-type flag written in the DDL, but — as in PostgreSQL — the
column is bound to the catalog type of that name, whose labels govern which
values the column admits. -/
inductive ColType : Type
  | integer
  | str
  | date
  | time
  | datetime
  | enum (labels : List String) (typeName : String) (createTypeFlag : Bool)
deriving DecidableEq

/-- One column of a table definition. -/
structure Column where
  name : String
  ctype : ColType
  nullable : Bool
  serverDefault : Option String := none
deriving DecidableEq

/-- A table definition: columns plus table-level constraints. -/
structure TableDef where
  name : String
  columns : List Column
  primaryKey : List String
  uniqueConstraints : List (List String)
deriving DecidableEq

/-- A named index. -/
structure IndexDef where
  name : String
  tableName : String
  columns : List String
  unique : Bool
deriving DecidableEq

/-- A stored row: column name to cell value, `none` being NULL. -/
def Row : Type := List (String × Option String)

instance : DecidableEq Row := by
  unfold Row; infer_instance

/-- The store state: type catalog, table definitions, indexes, and the rows of
each table. -/
structure DBState where
  types : List EnumType
  tables : List TableDef
  indexes : List IndexDef
  rows : List (String × List Row)
deriving DecidableEq

/-- Errors the store can raise for the DDL statements used by the migration. -/
inductive DBErr : Type
  | duplicateType (n : String)
  | duplicateTable (n : String)
  | duplicateIndex (n : String)
  | missingIndex (n : String)
  | missingTable (n : String)
  | missingType (n : String)
  | typeInUse (n : String)
deriving DecidableEq

/-- The catalog check of upgrade lines 24-28:
SELECT EXISTS (SELECT 1 FROM pg_type WHERE typname = ...). -/
def typeExists (s : DBState) (n : String) : Bool :=
  s.types.any (fun t => t.typname == n)

/-- CREATE TYPE ... AS ENUM (fails if a type of that name already exists). -/
def createType (s : DBState) (t : EnumType) : Except DBErr DBState :=
  if typeExists s t.typname then .error (.duplicateType t.typname)
  else .ok { s with types := t :: s.types }

def tableExists (s : DBState) (n : String) : Bool :=
  s.tables.any (fun t => t.name == n)

/-- CREATE TABLE (fails on a duplicate name; the new table starts empty). -/
def createTable (s : DBState) (t : TableDef) : Except DBErr DBState :=
  if tableExists s t.name then .error (.duplicateTable t.name)
  else .ok { s with tables := t :: s.tables, rows := (t.name, []) :: s.rows }

def indexExists (s : DBState) (n : String) : Bool :=
  s.indexes.any (fun i => i.name == n)

/-- CREATE INDEX (fails on a duplicate name). -/
def createIndex (s : DBState) (i : IndexDef) : Except DBErr DBState :=
  if indexExists s i.name then .error (.duplicateIndex i.name)
  else .ok { s with indexes := i :: s.indexes }

/-- DROP INDEX (fails if absent). -/
def dropIndex (s : DBState) (n : String) : Except DBErr DBState :=
  if indexExists s n then
    .ok { s with indexes := s.indexes.filter (fun i => i.name != n) }
  else .error (.missingIndex n)

/-- DROP TABLE (fails if absent; removes the table's rows with it). -/
def dropTable (s : DBState) (n : String) : Except DBErr DBState :=
  if tableExists s n then
    .ok { s with tables := s.tables.filter (fun t => t.name != n),
                 rows := s.rows.filter (fun p => p.1 != n) }
  else .error (.missingTable n)

/-- Whether a column of some existing table is bound to the named type. -/
def typeInUse (s : DBState) (n : String) : Bool :=
  s.tables.any (fun t => t.columns.any (fun c =>
    match c.ctype with
    | .enum _ tn _ => tn == n
    | _ => false))

/-- DROP TYPE: fails if the type is absent or still referenced by a table. -/
def dropType (s : DBState) (n : String) : Except DBErr DBState :=
  if typeExists s n then
    if typeInUse s n then .error (.typeInUse n)
    else .ok { s with types := s.types.filter (fun t => t.typname != n) }
  else .error (.missingType n)

/-! ## The migration 11a79f2c969c -/

/-- Revision identifier of the migration (line 14); it has no parent (line 15). -/
def revision : String := "11a79f2c969c"

/-- `down_revision = None`. -/
def down_revision : Option String := none

/-- The four labels of the enum, in DDL order (lines 32-36). -/
def appointmentStatusLabels : List String :=
  ["SCHEDULED", "COMPLETED", "CANCELLED", "PENDING"]

/-- The status column (line 56): an enum column naming `appointmentstatus`
with `create_type=False`, NOT NULL, server default SCHEDULED. -/
def statusColumn : Column :=
  { name := "status"
    ctype := .enum appointmentStatusLabels "appointmentstatus" false
    nullable := false
    serverDefault := some "SCHEDULED" }

/-- The appointments table of upgrade lines 43-61. -/
def appointmentsTable : TableDef :=
  { name := "appointments"
    columns :=
      [ { name := "id", ctype := .integer, nullable := false }
      , { name := "appointment_id", ctype := .str, nullable := false }
      , { name := "doctor_id", ctype := .str, nullable := false }
      , { name := "patient_id", ctype := .str, nullable := false }
      , { name := "facility_id", ctype := .str, nullable := false }
      , { name := "doctor_name", ctype := .str, nullable := false }
      , { name := "patient_name", ctype := .str, nullable := false }
      , { name := "appointment_date", ctype := .date, nullable := false }
      , { name := "appointment_start_time", ctype := .time, nullable := false }
      , { name := "appointment_end_time", ctype := .time, nullable := false }
      , { name := "purpose_of_visit", ctype := .str, nullable := false }
      , { name := "description", ctype := .str, nullable := true }
      , statusColumn
      , { name := "created_at", ctype := .datetime, nullable := false,
          serverDefault := some "now()" }
      , { name := "updated_at", ctype := .datetime, nullable := true } ]
    primaryKey := ["id"]
    uniqueConstraints := [["appointment_id"]] }

/-- Index of line 64 (unique). -/
def ixAppointmentId : IndexDef :=
  { name := "ix_appointments_appointment_id", tableName := "appointments",
    columns := ["appointment_id"], unique := true }

/-- Index of line 65. -/
def ixDoctorId : IndexDef :=
  { name := "ix_appointments_doctor_id", tableName := "appointments",
    columns := ["doctor_id"], unique := false }

/-- Index of line 66. -/
def ixFacilityId : IndexDef :=
  { name := "ix_appointments_facility_id", tableName := "appointments",
    columns := ["facility_id"], unique := false }

/-- Index of line 67. -/
def ixPatientId : IndexDef :=
  { name := "ix_appointments_patient_id", tableName := "appointments",
    columns := ["patient_id"], unique := false }

/-- The enum-creation step of upgrade (lines 21-40): check the catalog for a
type named `appointmentstatus`; create it with the four labels only when it is
absent. -/
def upgradeEnumStep (s : DBState) : Except DBErr DBState :=
  if typeExists s "appointmentstatus" then .ok s
  else createType s { typname := "appointmentstatus",
                      labels := appointmentStatusLabels }

/-- The forward migration `upgrade` (lines 19-67): guarded enum creation, then
the appointments table, then the four indexes. -/
def upgrade (s : DBState) : Except DBErr DBState := do
  let s1 ← upgradeEnumStep s
  let s2 ← createTable s1 appointmentsTable
  let s3 ← createIndex s2 ixAppointmentId
  let s4 ← createIndex s3 ixDoctorId
  let s5 ← createIndex s4 ixFacilityId
  createIndex s5 ixPatientId

/-- The index- and table-drop portion of downgrade (lines 71-77). -/
def downgradeDropSteps (s : DBState) : Except DBErr DBState := do
  let s1 ← dropIndex s "ix_appointments_patient_id"
  let s2 ← dropIndex s1 "ix_appointments_facility_id"
  let s3 ← dropIndex s2 "ix_appointments_doctor_id"
  let s4 ← dropIndex s3 "ix_appointments_appointment_id"
  dropTable s4 "appointments"

/-- The backward migration `downgrade` (lines 69-85): drop the indexes and the
table, then attempt DROP TYPE inside try/except, swallowing every error. -/
def downgrade (s : DBState) : Except DBErr DBState := do
  let s1 ← downgradeDropSteps s
  match dropType s1 "appointmentstatus" with
  | .ok s2 => .ok s2
  | .error _ => .ok s1

/-! ## Insert semantics at the storage layer

Standard PostgreSQL behaviour for `INSERT INTO t (cols) VALUES (vals)` against
the schema above: unknown columns are rejected; each declared column takes the
provided value, else its server default, else NULL when nullable and otherwise
raises a NOT NULL violation; an enum-typed cell must carry one of the labels of
the catalog type the column is bound to; and the primary key, the table's
unique constraints and the unique indexes reject a row agreeing (with non-NULL
values) with a stored row on all key columns. -/

/-- Insert-time errors. -/
inductive InsErr : Type
  | missingTable (n : String)
  | undefinedColumn (c : String)
  | notNullViolation (c : String)
  | invalidEnumValue (c v : String)
  | missingType (n : String)
  | uniqueViolation (key : List String)
deriving DecidableEq

/-- The cell a column gets: provided value, else server default, else NULL when
the column is nullable, else a NOT NULL violation. -/
def resolveCell (col : Column) (vals : List (String × String)) :
    Except InsErr (Option String) :=
  match vals.find? (fun p => p.1 == col.name) with
  | some p => .ok (some p.2)
  | none =>
    match col.serverDefault with
    | some d => .ok (some d)
    | none => if col.nullable then .ok none else .error (.notNullViolation col.name)

/-- Check a non-NULL cell of an enum column against the labels of the catalog
type the column is bound to (by name). -/
def checkColType (s : DBState) (col : Column) (v : Option String) :
    Except InsErr Unit :=
  match v with
  | none => .ok ()
  | some val =>
    match col.ctype with
    | .enum _ tn _ =>
      match s.types.find? (fun t => t.typname == tn) with
      | some t =>
        if t.labels.contains val then .ok ()
        else .error (.invalidEnumValue col.name val)
      | none => .error (.missingType tn)
    | _ => .ok ()

/-- Build the stored row, column by column. -/
def buildRow (s : DBState) (cols : List Column) (vals : List (String × String)) :
    Except InsErr Row :=
  match cols with
  | [] => .ok []
  | col :: rest => do
    let v ← resolveCell col vals
    let _ ← checkColType s col v
    let tail ← buildRow s rest vals
    .ok ((col.name, v) :: tail)

/-- Look a cell up in a row (first occurrence). -/
def lookupCell (r : Row) (c : String) : Option (Option String) :=
  (r.find? (fun p => p.1 == c)).map (fun p => p.2)

/-- Two rows conflict on a key when every key column is non-NULL in both and
the values agree (SQL UNIQUE semantics: NULLs never conflict). -/
def keyConflict (key : List String) (r1 r2 : Row) : Bool :=
  key.all (fun c =>
    match lookupCell r1 c, lookupCell r2 c with
    | some (some v1), some (some v2) => v1 == v2
    | _, _ => false)

/-- All uniqueness keys in force for a table: its primary key, its table-level
unique constraints, and every unique index on it. -/
def uniqueKeysOf (s : DBState) (t : TableDef) : List (List String) :=
  t.primaryKey :: t.uniqueConstraints ++
    ((s.indexes.filter (fun i => i.unique && (i.tableName == t.name))).map
      (fun i => i.columns))

/-- The stored rows of a table. -/
def storedRows (s : DBState) (tname : String) : List Row :=
  ((s.rows.find? (fun p => p.1 == tname)).map (fun p => p.2)).getD []

/-- Prepend a freshly inserted row to a table's row list. -/
def addRow (s : DBState) (tname : String) (row : Row) : DBState :=
  { s with rows := s.rows.map (fun p => if p.1 == tname then (p.1, row :: p.2) else p) }

/-- INSERT INTO tname (vals). -/
def insertRow (s : DBState) (tname : String) (vals : List (String × String)) :
    Except InsErr DBState :=
  match s.tables.find? (fun t => t.name == tname) with
  | none => .error (.missingTable tname)
  | some t =>
    match vals.find? (fun p => !(t.columns.any (fun c => c.name == p.1))) with
    | some p => .error (.undefinedColumn p.1)
    | none =>
      match buildRow s t.columns vals with
      | .error e => .error e
      | .ok row =>
        match (uniqueKeysOf s t).find?
            (fun k => (storedRows s tname).any (fun r => keyConflict k row r)) with
        | some k => .error (.uniqueViolation k)
        | none => .ok (addRow s tname row)

/-- The rows of the appointments table. -/
def appointmentRows (s : DBState) : List Row :=
  storedRows s "appointments"

/-- The appointment_id cell of a row. -/
def rowApptId (r : Row) : Option (Option String) :=
  lookupCell r "appointment_id"

/-- The claimed invariant: pairwise-distinct appointment identifiers. -/
def apptIdsDistinct (s : DBState) : Prop :=
  (appointmentRows s).Pairwise (fun r1 r2 => rowApptId r1 ≠ rowApptId r2)

/-- Auxiliary invariant: every stored appointment row carries a non-NULL
appointment identifier. -/
def apptIdsPresent (s : DBState) : Prop :=
  ∀ r ∈ appointmentRows s, ∃ v, rowApptId r = some (some v)

/-- The labels of a catalog type, empty when it is absent. -/
def catalogLabels (s : DBState) (n : String) : List String :=
  ((s.types.find? (fun t => t.typname == n)).map (fun t => t.labels)).getD []

/-! ## Concrete states used by the witnesses -/

/-- A fresh, empty database. -/
def freshDB : DBState := { types := [], tables := [], indexes := [], rows := [] }

/-- The result of the forward migration on the fresh database. -/
def upgradedFresh : DBState :=
  match upgrade freshDB with
  | .ok s => s
  | .error _ => freshDB

/-- A complete set of insert values for one appointment row (status omitted). -/
def sampleVals : List (String × String) :=
  [ ("id", "1"), ("appointment_id", "A1"), ("doctor_id", "D1")
  , ("patient_id", "P1"), ("facility_id", "F1"), ("doctor_name", "Dr")
  , ("patient_name", "Pat"), ("appointment_date", "2025-09-19")
  , ("appointment_start_time", "09:00"), ("appointment_end_time", "09:30")
  , ("purpose_of_visit", "checkup") ]

/-- The state after inserting `sampleVals` into the freshly migrated store. -/
def afterFirstInsert : DBState :=
  match insertRow upgradedFresh "appointments" sampleVals with
  | .ok s => s
  | .error _ => upgradedFresh

/-- A second row reusing appointment identifier A1 (different primary key). -/
def dupVals : List (String × String) :=
  [ ("id", "2"), ("appointment_id", "A1"), ("doctor_id", "D2")
  , ("patient_id", "P2"), ("facility_id", "F2"), ("doctor_name", "Dr2")
  , ("patient_name", "Pat2"), ("appointment_date", "2025-09-20")
  , ("appointment_start_time", "10:00"), ("appointment_end_time", "10:30")
  , ("purpose_of_visit", "followup") ]

/-- A database that already holds a type named appointmentstatus with a label
set different from the migration's four labels. -/
def weirdTypeDB : DBState :=
  { types := [{ typname := "appointmentstatus", labels := ["FOO", "BAR"] }]
    tables := [], indexes := [], rows := [] }

/-- The result of the forward migration on `weirdTypeDB`. -/
def upgradedWeird : DBState :=
  match upgrade weirdTypeDB with
  | .ok s => s
  | .error _ => weirdTypeDB

/-- The state after the index- and table-drop steps of downgrade, starting from
the freshly migrated store. -/
def droppedFresh : DBState :=
  match downgradeDropSteps upgradedFresh with
  | .ok s => s
  | .error _ => upgradedFresh

/-- The first stored appointment row after `afterFirstInsert`. -/
def firstRow : Row := (appointmentRows afterFirstInsert).headD []

/-- The row `dupVals` would produce, used to exhibit a well-formed duplicate
insert. -/
def dupRow : Row :=
  match buildRow afterFirstInsert appointmentsTable.columns dupVals with
  | .ok r => r
  | .error _ => []

/-- Well-formedness of a store holding the migrated appointments table: the
table lookup yields the migration's definition and the row store has an entry
for it. -/
def apptWF (s : DBState) : Prop :=
  s.tables.find? (fun t => t.name == "appointments") = some appointmentsTable ∧
  ∃ rs, s.rows.find? (fun p => p.1 == "appointments") = some ("appointments", rs)

/-! ## Helper lemmas -/

lemma except_bind_ok {ε α β : Type} {x : Except ε α} {f : α → Except ε β} {b : β}
    (h : x >>= f = .ok b) : ∃ a, x = .ok a ∧ f a = .ok b := by
  cases x with
  | error e => simp [Bind.bind, Except.bind] at h
  | ok a => exact ⟨a, rfl, by simpa [Bind.bind, Except.bind] using h⟩

lemma createTable_ok {s : DBState} {t : TableDef} {s1 : DBState}
    (h : createTable s t = .ok s1) :
    s1 = { s with tables := t :: s.tables, rows := (t.name, []) :: s.rows } := by
  unfold createTable at h
  cases hex : tableExists s t.name <;> rw [hex] at h <;> simp at h
  exact h.symm

lemma createIndex_ok {s : DBState} {i : IndexDef} {s1 : DBState}
    (h : createIndex s i = .ok s1) :
    s1 = { s with indexes := i :: s.indexes } := by
  unfold createIndex at h
  cases hex : indexExists s i.name <;> rw [hex] at h <;> simp at h
  exact h.symm

lemma upgradeEnumStep_ok {s s1 : DBState} (h : upgradeEnumStep s = .ok s1) :
    s1.tables = s.tables ∧ s1.indexes = s.indexes ∧ s1.rows = s.rows ∧
    typeExists s1 "appointmentstatus" = true ∧
    (typeExists s "appointmentstatus" = true → s1 = s) ∧
    (typeExists s "appointmentstatus" = false →
      s1.types = { typname := "appointmentstatus",
                   labels := appointmentStatusLabels } :: s.types) := by
  unfold upgradeEnumStep createType at h
  cases hex : typeExists s "appointmentstatus" <;> rw [hex] at h
  · simp [typeExists, hex] at h
    obtain rfl := h.symm
    refine ⟨rfl, rfl, rfl, ?_, by simp, fun _ => rfl⟩
    simp [typeExists]
  · simp at h
    obtain rfl := h.symm
    exact ⟨rfl, rfl, rfl, hex, fun _ => rfl, by simp⟩

lemma upgrade_ok {s s' : DBState} (h : upgrade s = .ok s') :
    ∃ s1, upgradeEnumStep s = .ok s1 ∧
      s' = { s1 with
              tables := appointmentsTable :: s1.tables,
              rows := ("appointments", []) :: s1.rows,
              indexes := ixPatientId :: ixFacilityId :: ixDoctorId ::
                         ixAppointmentId :: s1.indexes } := by
  unfold upgrade at h
  obtain ⟨s1, h1, h⟩ := except_bind_ok h
  obtain ⟨s2, h2, h⟩ := except_bind_ok h
  obtain ⟨s3, h3, h⟩ := except_bind_ok h
  obtain ⟨s4, h4, h⟩ := except_bind_ok h
  obtain ⟨s5, h5, h⟩ := except_bind_ok h
  obtain rfl := createTable_ok h2
  obtain rfl := createIndex_ok h3
  obtain rfl := createIndex_ok h4
  obtain rfl := createIndex_ok h5
  obtain rfl := (createIndex_ok h).symm
  exact ⟨s1, h1, rfl⟩

lemma dropIndex_ok {s : DBState} {n : String} {s1 : DBState}
    (h : dropIndex s n = .ok s1) :
    s1 = { s with indexes := s.indexes.filter (fun i => i.name != n) } := by
  unfold dropIndex at h
  cases hex : indexExists s n <;> rw [hex] at h <;> simp at h
  exact h.symm

lemma dropTable_ok {s : DBState} {n : String} {s1 : DBState}
    (h : dropTable s n = .ok s1) :
    s1 = { s with tables := s.tables.filter (fun t => t.name != n),
                  rows := s.rows.filter (fun p => p.1 != n) } := by
  unfold dropTable at h
  cases hex : tableExists s n <;> rw [hex] at h <;> simp at h
  exact h.symm

lemma dropType_ok {s : DBState} {n : String} {s1 : DBState}
    (h : dropType s n = .ok s1) :
    s1 = { s with types := s.types.filter (fun t => t.typname != n) } := by
  unfold dropType at h
  cases hex : typeExists s n <;> rw [hex] at h <;> simp at h
  cases hu : typeInUse s n <;> rw [hu] at h <;> simp at h
  exact h.symm

lemma filter_name_not_exists (l : List TableDef) (n : String) :
    (l.filter (fun t => t.name != n)).any (fun t => t.name == n) = false := by
  rw [List.any_eq_false]
  intro t ht
  rw [List.mem_filter] at ht
  simpa using ht.2

lemma downgradeDropSteps_ok {s s1 : DBState} (h : downgradeDropSteps s = .ok s1) :
    tableExists s1 "appointments" = false := by
  unfold downgradeDropSteps at h
  obtain ⟨t1, e1, h⟩ := except_bind_ok h
  obtain ⟨t2, e2, h⟩ := except_bind_ok h
  obtain ⟨t3, e3, h⟩ := except_bind_ok h
  obtain ⟨t4, e4, h⟩ := except_bind_ok h
  obtain rfl := (dropTable_ok h).symm
  simp [tableExists, filter_name_not_exists]

lemma upgrade_fields {s s' : DBState} (h : upgrade s = .ok s') :
    s'.tables = appointmentsTable :: s.tables ∧
    s'.rows = ("appointments", []) :: s.rows ∧
    s'.indexes = ixPatientId :: ixFacilityId :: ixDoctorId ::
      ixAppointmentId :: s.indexes ∧
    (typeExists s "appointmentstatus" = true → s'.types = s.types) ∧
    (typeExists s "appointmentstatus" = false →
      s'.types = { typname := "appointmentstatus",
                   labels := appointmentStatusLabels } :: s.types) := by
  obtain ⟨s1, h1, rfl⟩ := upgrade_ok h
  obtain ⟨ht, hi, hr, _, hskip, hnew⟩ := upgradeEnumStep_ok h1
  refine ⟨?_, ?_, ?_, ?_, ?_⟩
  · show appointmentsTable :: s1.tables = appointmentsTable :: s.tables
    rw [ht]
  · show ("appointments", ([] : List Row)) :: s1.rows =
      ("appointments", ([] : List Row)) :: s.rows
    rw [hr]
  · show ixPatientId :: ixFacilityId :: ixDoctorId :: ixAppointmentId ::
      s1.indexes = ixPatientId :: ixFacilityId :: ixDoctorId ::
      ixAppointmentId :: s.indexes
    rw [hi]
  · intro hh
    show s1.types = s.types
    rw [hskip hh]
  · intro hh
    show s1.types = _ :: s.types
    exact hnew hh

lemma upgrade_tables_find {s s' : DBState} (hu : upgrade s = .ok s') :
    s'.tables.find? (fun t => t.name == "appointments") = some appointmentsTable := by
  rw [(upgrade_fields hu).1]
  exact List.find?_cons_of_pos _ rfl

lemma upgrade_rows_find {s s' : DBState} (hu : upgrade s = .ok s') :
    s'.rows.find? (fun p => p.1 == "appointments") = some ("appointments", []) := by
  rw [(upgrade_fields hu).2.1]
  exact List.find?_cons_of_pos _ rfl

lemma upgrade_rows_empty {s s' : DBState} (hu : upgrade s = .ok s') :
    appointmentRows s' = [] := by
  unfold appointmentRows storedRows
  rw [upgrade_rows_find hu]
  rfl

lemma resolveCell_ok_provided {col : Column} {vals : List (String × String)}
    {u : Option String} {q : String × String}
    (hfv : vals.find? (fun p => p.1 == col.name) = some q)
    (h : resolveCell col vals = .ok u) : u = some q.2 := by
  unfold resolveCell at h
  rw [hfv] at h
  simpa using h.symm

lemma resolveCell_ok_default {col : Column} {vals : List (String × String)}
    {u : Option String} {d : String}
    (hfv : vals.find? (fun p => p.1 == col.name) = none)
    (hd : col.serverDefault = some d)
    (h : resolveCell col vals = .ok u) : u = some d := by
  unfold resolveCell at h
  rw [hfv, hd] at h
  simpa using h.symm

lemma resolveCell_not_null {col : Column} {vals : List (String × String)}
    {u : Option String} (hn : col.nullable = false) (hd : col.serverDefault = none)
    (h : resolveCell col vals = .ok u) : ∃ w, u = some w := by
  unfold resolveCell at h
  cases hf : vals.find? (fun p => p.1 == col.name) with
  | some p =>
    rw [hf] at h
    simp at h
    exact ⟨p.2, h.symm⟩
  | none =>
    rw [hf, hd, hn] at h
    simp at h

lemma buildRow_cell {s : DBState} {cols : List Column}
    {vals : List (String × String)} {row : Row} {c : String} {col : Column}
    (h : buildRow s cols vals = .ok row)
    (hfind : cols.find? (fun d => d.name == c) = some col) :
    ∃ v, lookupCell row c = some v ∧ resolveCell col vals = .ok v ∧
      checkColType s col v = .ok () := by
  induction cols generalizing row with
  | nil => simp at hfind
  | cons d rest ih =>
    unfold buildRow at h
    obtain ⟨v, hv, h⟩ := except_bind_ok h
    obtain ⟨u, hu, h⟩ := except_bind_ok h
    obtain ⟨tail, htail, hrow⟩ := except_bind_ok h
    cases u
    have hrow2 : row = (d.name, v) :: tail := by
      simpa [Pure.pure, Except.pure] using hrow.symm
    by_cases hdc : (d.name == c) = true
    · have hf2 : List.find? (fun d2 : Column => d2.name == c) (d :: rest) = some d :=
        List.find?_cons_of_pos _ hdc
      rw [hf2] at hfind
      have hcol : d = col := by injection hfind
      subst hcol
      refine ⟨v, ?_, hv, hu⟩
      have hstep : List.find? (fun p : String × Option String => p.1 == c)
          ((d.name, v) :: tail) = some (d.name, v) :=
        List.find?_cons_of_pos _ hdc
      rw [hrow2]
      unfold lookupCell
      rw [hstep]
      rfl
    · have hf2 : List.find? (fun d2 : Column => d2.name == c) (d :: rest) =
          List.find? (fun d2 => d2.name == c) rest :=
        List.find?_cons_of_neg _ hdc
      rw [hf2] at hfind
      obtain ⟨v2, h1, h2, h3⟩ := ih htail hfind
      refine ⟨v2, ?_, h2, h3⟩
      have hstep : List.find? (fun p : String × Option String => p.1 == c)
          ((d.name, v) :: tail) = List.find? (fun p => p.1 == c) tail :=
        List.find?_cons_of_neg _ hdc
      rw [hrow2]
      unfold lookupCell
      rw [hstep]
      exact h1

lemma insertRow_ok_parts {s : DBState} {tname : String}
    {vals : List (String × String)} {s2 : DBState}
    (h : insertRow s tname vals = .ok s2) :
    ∃ t row, s.tables.find? (fun t => t.name == tname) = some t ∧
      vals.find? (fun p => !(t.columns.any (fun c => c.name == p.1))) = none ∧
      buildRow s t.columns vals = .ok row ∧
      (∀ k ∈ uniqueKeysOf s t, ∀ r ∈ storedRows s tname,
        keyConflict k row r = false) ∧
      s2 = addRow s tname row := by
  unfold insertRow at h
  split at h
  · simp at h
  · rename_i t hft
    split at h
    · simp at h
    · rename_i hvc
      split at h
      · simp at h
      · rename_i row hbr
        split at h
        · simp at h
        · rename_i hk
          refine ⟨t, row, hft, hvc, hbr, ?_, by simpa using h.symm⟩
          intro k hkm r hrm
          have hnot := List.find?_eq_none.mp hk k hkm
          rw [Bool.not_eq_true, List.any_eq_false] at hnot
          have := hnot r hrm
          simpa using this

lemma insertRow_conflict {s : DBState} {tname : String}
    {vals : List (String × String)} {t : TableDef} {row : Row}
    (hft : s.tables.find? (fun t => t.name == tname) = some t)
    (hvc : vals.find? (fun p => !(t.columns.any (fun c => c.name == p.1))) = none)
    (hbr : buildRow s t.columns vals = .ok row)
    (hconf : ∃ k ∈ uniqueKeysOf s t, ∃ r ∈ storedRows s tname,
        keyConflict k row r = true) :
    ∃ k, insertRow s tname vals = .error (.uniqueViolation k) := by
  obtain ⟨k0, hk0, r0, hr0, hc0⟩ := hconf
  have hsome : ((uniqueKeysOf s t).find?
      (fun k => (storedRows s tname).any (fun r => keyConflict k row r))).isSome := by
    rw [List.find?_isSome]
    exact ⟨k0, hk0, List.any_eq_true.mpr ⟨r0, hr0, hc0⟩⟩
  obtain ⟨k, hk⟩ := Option.isSome_iff_exists.mp hsome
  refine ⟨k, ?_⟩
  simp only [insertRow, hft, hvc, hbr, hk]

lemma find?_map_addRow (l : List (String × List Row)) (tn : String) (row : Row)
    (rs : List Row) (hf : l.find? (fun p => p.1 == tn) = some (tn, rs)) :
    (l.map (fun p => if p.1 == tn then (p.1, row :: p.2) else p)).find?
        (fun p => p.1 == tn) = some (tn, row :: rs) := by
  induction l with
  | nil => simp at hf
  | cons p rest ih =>
    by_cases hp : (p.1 == tn) = true
    · have hf2 : List.find? (fun p2 : String × List Row => p2.1 == tn) (p :: rest) =
          some p := List.find?_cons_of_pos _ hp
      rw [hf2] at hf
      have hpeq : p = (tn, rs) := by injection hf
      subst hpeq
      rw [List.map_cons]
      simp only [hp, if_true]
      exact List.find?_cons_of_pos _ hp
    · have hf2 : List.find? (fun p2 : String × List Row => p2.1 == tn) (p :: rest) =
          List.find? (fun p2 => p2.1 == tn) rest := List.find?_cons_of_neg _ hp
      rw [hf2] at hf
      rw [List.map_cons]
      have hhead : (if (p.1 == tn) = true then (p.1, row :: p.2) else p) = p := by
        simp [hp]
      simp only [hhead]
      have hf3 : List.find? (fun p2 : String × List Row => p2.1 == tn) (p :: (rest.map
          (fun p2 => if p2.1 == tn then (p2.1, row :: p2.2) else p2))) =
          List.find? (fun p2 => p2.1 == tn)
            (rest.map (fun p2 => if p2.1 == tn then (p2.1, row :: p2.2) else p2)) :=
        List.find?_cons_of_neg _ hp
      rw [hf3]
      exact ih hf

lemma storedRows_addRow {s : DBState} {tn : String} {rs : List Row}
    (hf : s.rows.find? (fun p => p.1 == tn) = some (tn, rs)) (row : Row) :
    storedRows (addRow s tn row) tn = row :: rs ∧
    (addRow s tn row).rows.find? (fun p => p.1 == tn) = some (tn, row :: rs) := by
  have hmap := find?_map_addRow s.rows tn row rs hf
  constructor
  · unfold storedRows addRow
    rw [hmap]
    rfl
  · exact hmap

lemma storedRows_of_find {s : DBState} {tn : String} {rs : List Row}
    (hf : s.rows.find? (fun p => p.1 == tn) = some (tn, rs)) :
    storedRows s tn = rs := by
  unfold storedRows
  rw [hf]
  rfl

lemma apptKey_mem (s : DBState) :
    ["appointment_id"] ∈ uniqueKeysOf s appointmentsTable := by
  unfold uniqueKeysOf
  right
  exact List.mem_append_left _ (by simp [appointmentsTable])

lemma keyConflict_single_id {row r : Row} {w w2 : String}
    (h1 : lookupCell row "appointment_id" = some (some w))
    (h2 : lookupCell r "appointment_id" = some (some w2)) :
    keyConflict ["appointment_id"] row r = (w == w2) := by
  simp [keyConflict, h1, h2]

lemma apptCols_find_apptId :
    appointmentsTable.columns.find? (fun d => d.name == "appointment_id") =
      some { name := "appointment_id", ctype := .str, nullable := false } := by
  rfl

lemma apptCols_find_status :
    appointmentsTable.columns.find? (fun d => d.name == "status") =
      some statusColumn := by
  rfl

/-- Claim C3 as stated is false: the active configuration's engine is built by
`create_engine(DATABASE_URL, echo=True)` without `pool_pre_ping`, so the
pre-ping flag keeps its `False` default. -/
theorem claim_C3_counterexample : ¬ (engine emptyEnv).poolPrePing = true := by
  decide

/-- Claim C3 (amended): the active configuration constructs the engine without
pool pre-ping (the flag is false for every environment) and with echo enabled;
pool pre-ping is enabled only in the disabled, commented-out configuration. -/
theorem claim_C3 :
    (∀ env, (engine env).poolPrePing = false ∧ (engine env).echo = true) ∧
    (∀ env, (engineDisabled env).poolPrePing = true) :=
  ⟨fun _ => ⟨rfl, rfl⟩, fun _ => rfl⟩

/-- Claim C7: on every exit path of the caller's unit of work — normal return,
exception, or early generator termination — `get_session` leaves the yielded
session closed, and the outcome itself is passed through unchanged. -/
theorem claim_C7 (α : Type) (body : Session → BodyOutcome α) :
    (get_session body).1.closed = true ∧
    (get_session body).2 = body { closed := false } := by
  unfold get_session sessionExit
  cases h : body { closed := false } <;> simp [h]

/-- Claim C8: with no variable set, the five configuration components take
their independent defaults — in particular the host defaults to "db" — and
setting any one variable changes exactly that component of the configuration
from which the connection string is assembled. -/
theorem claim_C8 :
    pgConfig emptyEnv =
      { user := "postgres", password := "anil", db := "appointment_db",
        host := "db", port := "5432" } ∧
    (∀ env v, pgConfig (setEnv env "POSTGRES_USER" v) = { pgConfig env with user := v }) ∧
    (∀ env v, pgConfig (setEnv env "POSTGRES_PASSWORD" v) = { pgConfig env with password := v }) ∧
    (∀ env v, pgConfig (setEnv env "POSTGRES_DB" v) = { pgConfig env with db := v }) ∧
    (∀ env v, pgConfig (setEnv env "POSTGRES_HOST" v) = { pgConfig env with host := v }) ∧
    (∀ env v, pgConfig (setEnv env "POSTGRES_PORT" v) = { pgConfig env with port := v }) := by
  refine ⟨rfl, ?_, ?_, ?_, ?_, ?_⟩ <;>
    · intro env v
      simp [pgConfig, getenv, setEnv]

/-- Claim C10: the connection string is the stated deterministic function of
the five environment variables; with none of them set it is exactly
postgresql://postgres:anil@db:5432/appointment_db, the default password "anil"
embedded in plaintext. -/
theorem claim_C10 :
    DATABASE_URL emptyEnv = "postgresql://postgres:anil@db:5432/appointment_db" ∧
    (pgConfig emptyEnv).password = "anil" ∧
    (∀ env env2,
      env "POSTGRES_USER" = env2 "POSTGRES_USER" →
      env "POSTGRES_PASSWORD" = env2 "POSTGRES_PASSWORD" →
      env "POSTGRES_DB" = env2 "POSTGRES_DB" →
      env "POSTGRES_HOST" = env2 "POSTGRES_HOST" →
      env "POSTGRES_PORT" = env2 "POSTGRES_PORT" →
      DATABASE_URL env = DATABASE_URL env2) := by
  refine ⟨rfl, rfl, ?_⟩
  intro env env2 h1 h2 h3 h4 h5
  simp only [DATABASE_URL, urlOfConfig, pgConfig, getenv, h1, h2, h3, h4, h5]

/-- Witness for claim C10 at the empty environment. -/
theorem claim_C10_witness :
    DATABASE_URL emptyEnv = "postgresql://postgres:anil@db:5432/appointment_db" ∧
    DATABASE_URL emptyEnv = DATABASE_URL emptyEnv :=
  ⟨claim_C10.1, claim_C10.2.2 emptyEnv emptyEnv rfl rfl rfl rfl rfl⟩

/-- Claim C1: the enum-creation step is idempotent — whenever a type named
appointmentstatus already exists in the catalog the step succeeds without
changing the state, and in particular it succeeds on the state produced by a
first successful run of the forward migration. -/
theorem claim_C1 (s s' : DBState) (h : upgrade s = .ok s') :
    upgradeEnumStep s' = .ok s' ∧
    ∀ t, typeExists t "appointmentstatus" = true → upgradeEnumStep t = .ok t := by
  have hskip : ∀ t : DBState, typeExists t "appointmentstatus" = true →
      upgradeEnumStep t = .ok t := by
    intro t ht
    unfold upgradeEnumStep
    rw [ht]
    simp
  obtain ⟨s1, h1, rfl⟩ := upgrade_ok h
  have hty := (upgradeEnumStep_ok h1).2.2.2.1
  exact ⟨hskip _ (by simpa [typeExists] using hty), hskip⟩

/-- Witness for claim C1: the migrated fresh database. -/
theorem claim_C1_witness :
    upgradeEnumStep upgradedFresh = .ok upgradedFresh ∧
    ∀ t, typeExists t "appointmentstatus" = true → upgradeEnumStep t = .ok t :=
  claim_C1 freshDB upgradedFresh rfl

/-- Claim C2: whenever the index- and table-drop steps of downgrade succeed,
the whole downgrade succeeds — the try/except swallows any failure of DROP
TYPE — and in the final state the appointments table is gone while the type is
either still there or removed. -/
theorem claim_C2 (s s1 : DBState) (h : downgradeDropSteps s = .ok s1) :
    ∃ s2, downgrade s = .ok s2 ∧
      tableExists s2 "appointments" = false ∧
      s2.tables = s1.tables ∧ s2.indexes = s1.indexes ∧ s2.rows = s1.rows ∧
      (s2.types = s1.types ∨
        s2.types = s1.types.filter (fun t => t.typname != "appointmentstatus")) := by
  have htab := downgradeDropSteps_ok h
  have hd : downgrade s = (match dropType s1 "appointmentstatus" with
      | .ok s2 => .ok s2
      | .error _ => .ok s1) := by
    unfold downgrade
    rw [h]
    rfl
  cases hdt : dropType s1 "appointmentstatus" with
  | ok s2 =>
    have hs2 := dropType_ok hdt
    refine ⟨s2, by rw [hd, hdt], ?_, by rw [hs2], by rw [hs2], by rw [hs2],
           Or.inr (by rw [hs2])⟩
    rw [hs2]
    simpa [tableExists] using htab
  | error e =>
    exact ⟨s1, by rw [hd, hdt], htab, rfl, rfl, rfl, Or.inl rfl⟩

/-- Witness for claim C2: the drop steps on the freshly migrated database. -/
theorem claim_C2_witness :
    ∃ s2, downgrade upgradedFresh = .ok s2 ∧
      tableExists s2 "appointments" = false ∧
      s2.tables = droppedFresh.tables ∧ s2.indexes = droppedFresh.indexes ∧
      s2.rows = droppedFresh.rows ∧
      (s2.types = droppedFresh.types ∨
        s2.types = droppedFresh.types.filter
          (fun t => t.typname != "appointmentstatus")) :=
  claim_C2 upgradedFresh droppedFresh rfl

/-- Claim C6: a successful forward migration adds exactly the four indexes, in
DDL order, with the stated names, target columns and uniqueness flags, leaving
any pre-existing indexes untouched. -/
theorem claim_C6 (s s' : DBState) (h : upgrade s = .ok s') :
    s'.indexes = ixPatientId :: ixFacilityId :: ixDoctorId ::
      ixAppointmentId :: s.indexes ∧
    ixAppointmentId = { name := "ix_appointments_appointment_id",
                        tableName := "appointments",
                        columns := ["appointment_id"], unique := true } ∧
    ixDoctorId = { name := "ix_appointments_doctor_id",
                   tableName := "appointments",
                   columns := ["doctor_id"], unique := false } ∧
    ixFacilityId = { name := "ix_appointments_facility_id",
                     tableName := "appointments",
                     columns := ["facility_id"], unique := false } ∧
    ixPatientId = { name := "ix_appointments_patient_id",
                    tableName := "appointments",
                    columns := ["patient_id"], unique := false } := by
  obtain ⟨s1, h1, rfl⟩ := upgrade_ok h
  have hidx := (upgradeEnumStep_ok h1).2.1
  exact ⟨by rw [hidx], rfl, rfl, rfl, rfl⟩

/-- Witness for claim C6: the fresh database. -/
theorem claim_C6_witness :
    upgradedFresh.indexes = ixPatientId :: ixFacilityId :: ixDoctorId ::
      ixAppointmentId :: freshDB.indexes ∧
    ixAppointmentId = { name := "ix_appointments_appointment_id",
                        tableName := "appointments",
                        columns := ["appointment_id"], unique := true } ∧
    ixDoctorId = { name := "ix_appointments_doctor_id",
                   tableName := "appointments",
                   columns := ["doctor_id"], unique := false } ∧
    ixFacilityId = { name := "ix_appointments_facility_id",
                     tableName := "appointments",
                     columns := ["facility_id"], unique := false } ∧
    ixPatientId = { name := "ix_appointments_patient_id",
                    tableName := "appointments",
                    columns := ["patient_id"], unique := false } :=
  (claim_C6 freshDB upgradedFresh rfl)

/-- Claim C9: when the catalog already holds a type named appointmentstatus —
whatever its labels — the forward migration leaves the type catalog untouched,
its status column carries the do-not-create flag, and the values the status
column admits afterwards are exactly the labels of the pre-existing type, never
checked against the migration's four labels. -/
theorem claim_C9 (s s' : DBState) (h : typeExists s "appointmentstatus" = true)
    (hu : upgrade s = .ok s') :
    s'.types = s.types ∧
    statusColumn ∈ appointmentsTable.columns ∧
    statusColumn.ctype =
      ColType.enum appointmentStatusLabels "appointmentstatus" false ∧
    (∀ v, (checkColType s' statusColumn (some v) = .ok ()) ↔
      (catalogLabels s "appointmentstatus").contains v = true) := by
  obtain ⟨s1, h1, rfl⟩ := upgrade_ok hu
  obtain rfl := ((upgradeEnumStep_ok h1).2.2.2.2.1 h).symm
  refine ⟨rfl, by simp [appointmentsTable], rfl, ?_⟩
  intro v
  unfold typeExists at h
  obtain ⟨t0, ht0⟩ : ∃ t0,
      s.types.find? (fun t => t.typname == "appointmentstatus") = some t0 := by
    obtain ⟨x, hx, hpx⟩ := List.any_eq_true.mp h
    exact Option.isSome_iff_exists.mp (List.find?_isSome.mpr ⟨x, hx, hpx⟩)
  have hc : checkColType
      ({ s with tables := appointmentsTable :: s.tables,
                rows := ("appointments", []) :: s.rows,
                indexes := ixPatientId :: ixFacilityId :: ixDoctorId ::
                           ixAppointmentId :: s.indexes } : DBState)
      statusColumn (some v) =
      (if t0.labels.contains v then .ok ()
       else .error (.invalidEnumValue "status" v)) := by
    simp only [checkColType, statusColumn, ht0]
  rw [hc]
  have hcat : catalogLabels s "appointmentstatus" = t0.labels := by
    simp [catalogLabels, ht0]
  rw [hcat]
  cases hl : t0.labels.contains v <;> simp [hl]

/-- Witness for claim C9: a database whose appointmentstatus type has labels
FOO and BAR. -/
theorem claim_C9_witness :
    upgradedWeird.types = weirdTypeDB.types ∧
    statusColumn ∈ appointmentsTable.columns ∧
    statusColumn.ctype =
      ColType.enum appointmentStatusLabels "appointmentstatus" false ∧
    (∀ v, (checkColType upgradedWeird statusColumn (some v) = .ok ()) ↔
      (catalogLabels weirdTypeDB "appointmentstatus").contains v = true) :=
  claim_C9 weirdTypeDB upgradedWeird rfl rfl

/-- Claim C4: after the forward migration the appointment_id column is NOT
NULL, carries a unique constraint, and appointment identifiers are pairwise
distinct: the migrated table starts empty with the invariant holding, every
successful insert preserves it, and an insert reusing a stored appointment_id
is rejected with a uniqueness violation. -/
theorem claim_C4 :
    (∀ s s', upgrade s = .ok s' →
      apptIdsDistinct s' ∧ apptIdsPresent s' ∧ apptWF s') ∧
    (∀ s vals s2, apptWF s → apptIdsDistinct s → apptIdsPresent s →
      insertRow s "appointments" vals = .ok s2 →
      apptIdsDistinct s2 ∧ apptIdsPresent s2 ∧ apptWF s2) ∧
    (∀ s vals v r, apptWF s → r ∈ appointmentRows s →
      rowApptId r = some (some v) →
      vals.find? (fun p => p.1 == "appointment_id") = some ("appointment_id", v) →
      vals.find? (fun p => !(appointmentsTable.columns.any
        (fun c => c.name == p.1))) = none →
      (∃ row0, buildRow s appointmentsTable.columns vals = .ok row0) →
      ∃ k, insertRow s "appointments" vals = .error (.uniqueViolation k)) ∧
    (appointmentsTable.columns.find? (fun c => c.name == "appointment_id")).map
      Column.nullable = some false ∧
    ["appointment_id"] ∈ appointmentsTable.uniqueConstraints := by
  refine ⟨?_, ?_, ?_, rfl, by simp [appointmentsTable]⟩
  · intro s s' hu
    have hempty := upgrade_rows_empty hu
    refine ⟨?_, ?_, upgrade_tables_find hu, [], upgrade_rows_find hu⟩
    · unfold apptIdsDistinct
      rw [hempty]
      exact List.Pairwise.nil
    · unfold apptIdsPresent
      rw [hempty]
      intro r hr
      simp at hr
  · intro s vals s2 hwf hdist hpres hins
    obtain ⟨hwft, rs, hwfr⟩ := hwf
    obtain ⟨t, row, hft, hvc, hbr, hnoc, rfl⟩ := insertRow_ok_parts hins
    have ht : t = appointmentsTable :=
      Option.some.inj (hft.symm.trans hwft)
    subst ht
    have hsr : storedRows s "appointments" = rs := storedRows_of_find hwfr
    obtain ⟨hnew, hfind2⟩ := storedRows_addRow hwfr row
    obtain ⟨u, hlu, hru, hcu⟩ := buildRow_cell hbr apptCols_find_apptId
    obtain ⟨w, rfl⟩ := resolveCell_not_null rfl rfl hru
    have hpres2 : ∀ r ∈ rs, ∃ w2, rowApptId r = some (some w2) := by
      intro r hr
      apply hpres
      show r ∈ storedRows s "appointments"
      rw [hsr]
      exact hr
    refine ⟨?_, ?_, ?_⟩
    · unfold apptIdsDistinct at hdist ⊢
      have hrows2 : appointmentRows (addRow s "appointments" row) = row :: rs := hnew
      rw [hrows2, List.pairwise_cons]
      refine ⟨?_, ?_⟩
      · intro r hr hcontra
        obtain ⟨w2, hw2⟩ := hpres2 r hr
        have hconf : keyConflict ["appointment_id"] row r = false := by
          apply hnoc ["appointment_id"] (apptKey_mem s) r
          rw [hsr]
          exact hr
        rw [keyConflict_single_id hlu hw2] at hconf
        rw [show rowApptId row = some (some w) from hlu, hw2] at hcontra
        simp at hcontra
        subst hcontra
        simp at hconf
      · have : appointmentRows s = rs := hsr
        rw [this] at hdist
        exact hdist
    · unfold apptIdsPresent
      have hrows2 : appointmentRows (addRow s "appointments" row) = row :: rs := hnew
      rw [hrows2]
      intro r hr
      rcases List.mem_cons.mp hr with hr | hr
      · subst hr
        exact ⟨w, hlu⟩
      · exact hpres2 r hr
    · refine ⟨?_, row :: rs, hfind2⟩
      show (addRow s "appointments" row).tables.find?
        (fun t => t.name == "appointments") = some appointmentsTable
      exact hwft
  · intro s vals v r hwf hr hrid hfv hvc hbuild
    obtain ⟨hwft, rs, hwfr⟩ := hwf
    obtain ⟨row0, hbr⟩ := hbuild
    obtain ⟨u, hlu, hru, hcu⟩ := buildRow_cell hbr apptCols_find_apptId
    have hu2 : u = some v := resolveCell_ok_provided hfv hru
    subst hu2
    apply insertRow_conflict hwft hvc hbr
    refine ⟨["appointment_id"], apptKey_mem s, r, hr, ?_⟩
    rw [keyConflict_single_id hlu hrid]
    simp

/-- Witness for claim C4: the migrated fresh database holds distinct
identifiers, and re-inserting appointment identifier A1 fails with a
uniqueness violation. -/
theorem claim_C4_witness :
    apptIdsDistinct upgradedFresh ∧
    (∃ k, insertRow afterFirstInsert "appointments" dupVals =
      .error (.uniqueViolation k)) :=
  ⟨(claim_C4.1 freshDB upgradedFresh rfl).1,
   claim_C4.2.2.1 afterFirstInsert dupVals "A1" firstRow
     ⟨rfl, appointmentRows afterFirstInsert, rfl⟩
     (by decide) rfl rfl rfl ⟨dupRow, rfl⟩⟩

/-- Claim C5: after the forward migration of a catalog not yet holding the
type, the status column is NOT NULL, admits exactly the four labels SCHEDULED,
COMPLETED, CANCELLED, PENDING, an insert omitting status stores SCHEDULED, and
an insert carrying any other status value is rejected. -/
theorem claim_C5 (s s' : DBState)
    (hfresh : typeExists s "appointmentstatus" = false)
    (hu : upgrade s = .ok s') :
    statusColumn.nullable = false ∧
    (∀ v, (checkColType s' statusColumn (some v) = .ok ()) ↔
      appointmentStatusLabels.contains v = true) ∧
    (∀ vals s2, vals.find? (fun p => p.1 == "status") = none →
      insertRow s' "appointments" vals = .ok s2 →
      ∃ row rest, appointmentRows s2 = row :: rest ∧
        lookupCell row "status" = some (some "SCHEDULED")) ∧
    (∀ vals q, vals.find? (fun p => p.1 == "status") = some ("status", q) →
      appointmentStatusLabels.contains q = false →
      ∀ s2, insertRow s' "appointments" vals ≠ .ok s2) := by
  have hfind : s'.types.find? (fun t => t.typname == "appointmentstatus") =
      some { typname := "appointmentstatus", labels := appointmentStatusLabels } := by
    rw [(upgrade_fields hu).2.2.2.2 hfresh]
    exact List.find?_cons_of_pos _ rfl
  have hcheck : ∀ v, checkColType s' statusColumn (some v) =
      (if appointmentStatusLabels.contains v then .ok ()
       else .error (.invalidEnumValue "status" v)) := by
    intro v
    simp only [checkColType, statusColumn, hfind]
  refine ⟨rfl, ?_, ?_, ?_⟩
  · intro v
    rw [hcheck v]
    cases hl : appointmentStatusLabels.contains v <;> simp [hl]
  · intro vals s2 hnostatus hins
    obtain ⟨t, row, hft, hvc, hbr, hnoc, rfl⟩ := insertRow_ok_parts hins
    have ht : t = appointmentsTable :=
      Option.some.inj (hft.symm.trans (upgrade_tables_find hu))
    subst ht
    obtain ⟨u, hlu, hru, hcu⟩ := buildRow_cell hbr apptCols_find_status
    have hu2 : u = some "SCHEDULED" := resolveCell_ok_default hnostatus rfl hru
    subst hu2
    refine ⟨row, [], ?_, hlu⟩
    exact (storedRows_addRow (upgrade_rows_find hu) row).1
  · intro vals q hq hnot s2 hins
    obtain ⟨t, row, hft, hvc, hbr, hnoc, _⟩ := insertRow_ok_parts hins
    have ht : t = appointmentsTable :=
      Option.some.inj (hft.symm.trans (upgrade_tables_find hu))
    subst ht
    obtain ⟨u, hlu, hru, hcu⟩ := buildRow_cell hbr apptCols_find_status
    have hu2 : u = some q := resolveCell_ok_provided hq hru
    subst hu2
    rw [hcheck q, hnot] at hcu
    simp at hcu

/-- Witness for claim C5: inserting `sampleVals` (status omitted) into the
freshly migrated database stores SCHEDULED. -/
theorem claim_C5_witness :
    statusColumn.nullable = false ∧
    (∃ row rest, appointmentRows afterFirstInsert = row :: rest ∧
      lookupCell row "status" = some (some "SCHEDULED")) :=
  ⟨(claim_C5 freshDB upgradedFresh rfl rfl).1,
   (claim_C5 freshDB upgradedFresh rfl rfl).2.2.1 sampleVals afterFirstInsert
     rfl rfl⟩

end AppointmentService
